import Mathlib

/-!
Verification development for the `timeline` package (repository
sunraylab/timeslice): a shallow embedding of the time-slice range model,
the time-mask stepping operations and the calendar-aware duration
formatter, together with theorems settling the specification claims.

The external instant type (Go `time.Time`) is modelled as an `Int` of
nanoseconds counted from the zero time (January 1 of year 1, 00:00:00
UTC); `0` is the zero sentinel.  Ordering, equality, `Add` and `Sub` of
instants are integer operations (the idealized, overflow-free instant
the specification describes).  The calendar decomposition consumed by
the package (year / month / day / hour / minute, proleptic Gregorian,
UTC) is implemented below with the standard civil-calendar algorithms.
-/

/- An instant is an `Int`: nanoseconds since the zero time (year 1,
Jan 1, 00:00:00 UTC).  `0` models Go's zero `time.Time`, the sentinel
that doubles as an infinite boundary.  A mask is an `Int` as well, as
in the source. -/

def nsPerSecond : Int := 1000000000

def nsPerMinute : Int := 60 * nsPerSecond

def nsPerHour : Int := 60 * nsPerMinute

def nsPerDay : Int := 24 * nsPerHour

/-- Model of the external calendar: convert a count of days since
0001-01-01 to a civil date (year, month, day), proleptic Gregorian. -/
def civilFromDays (d : Int) : Int × Int × Int :=
  let z := d + 306
  let era := z.fdiv 146097
  let doe := z - era * 146097
  let yoe := (doe - doe.fdiv 1460 + doe.fdiv 36524 - doe.fdiv 146096).fdiv 365
  let y := yoe + era * 400
  let doy := doe - (365 * yoe + yoe.fdiv 4 - yoe.fdiv 100)
  let mp := (5 * doy + 2).fdiv 153
  let dd := doy - (153 * mp + 2).fdiv 5 + 1
  let mm := if mp < 10 then mp + 3 else mp - 9
  (if mm ≤ 2 then y + 1 else y, mm, dd)

/-- Model of the external calendar: days since 0001-01-01 of the civil
date (y, m, d), proleptic Gregorian (m must be in 1..12, d may be any
offset from the first of the month). -/
def daysFromCivil (y m d : Int) : Int :=
  let y1 := if m ≤ 2 then y - 1 else y
  let era := y1.fdiv 400
  let yoe := y1 - era * 400
  let mp := (m + 9).emod 12
  let doy := (153 * mp + 2).fdiv 5 + d - 1
  let doe := yoe * 365 + yoe.fdiv 4 - yoe.fdiv 100 + doy
  era * 146097 + doe - 306

/-- Civil date (year, month, day) of an instant, as Go `t.Date()` in UTC. -/
def timeDate (t : Int) : Int × Int × Int :=
  civilFromDays ((t.fdiv nsPerSecond).fdiv 86400)

/-- Hour of the day of an instant, as Go `t.Hour()` in UTC. -/
def timeHour (t : Int) : Int :=
  ((t.fdiv nsPerSecond).emod 86400).fdiv 3600

/-- Minute within the hour of an instant, as Go `t.Minute()` in UTC. -/
def timeMinute (t : Int) : Int :=
  (((t.fdiv nsPerSecond).emod 86400).emod 3600).fdiv 60

/-- Model of Go `time.Date(Y, M, d, h, mi, s, 0, UTC)`: the month is
normalized into the year by floor division (as Go's `norm`), the day
offset and clock fields are added linearly. -/
def mkDate (Y M d h mi s : Int) : Int :=
  let m0 := M - 1
  let y := Y + m0.fdiv 12
  let m := m0.emod 12 + 1
  (daysFromCivil y m d * 86400 + h * 3600 + mi * 60 + s) * nsPerSecond

/-! ## TimeMask (src/timemask.go) -/

def MASK_NONE : Int := 0

def MASK_min : Int := 1

def MASK_SHORTEST : Int := 1

def MASK_MINUTE : Int := 1

def MASK_MINUTEx15 : Int := 2

def MASK_HALFHOUR : Int := 3

def MASK_HOUR : Int := 4

def MASK_HOURx4 : Int := 5

def MASK_HALFDAY : Int := 6

def MASK_DAY : Int := 7

def MASK_MONTH : Int := 8

def MASK_QUARTER : Int := 9

def MASK_YEAR : Int := 10

def MASK_max : Int := 10

/-- `TimeMask.Apply` from src/timemask.go, lines 103-140.  Returns the
masked time and the exact-match flag; `none` models the `panic` of the
`default` branch for an unmanaged mask. -/
def TimeMask.Apply (mask : Int) (t : Int) : Option (Int × Bool) :=
  let p := timeDate t
  let Y := p.1
  let M := p.2.1
  let d := p.2.2
  let h := timeHour t
  let m := timeMinute t
  let masked : Option Int :=
    if mask = MASK_NONE then some t
    else if mask = MASK_MINUTE then some (mkDate Y M d h m 0)
    else if mask = MASK_MINUTEx15 then some (mkDate Y M d h (m / 15 * 15) 0)
    else if mask = MASK_HALFHOUR then some (mkDate Y M d h (m / 30 * 30) 0)
    else if mask = MASK_HOUR then some (mkDate Y M d h 0 0)
    else if mask = MASK_HOURx4 then some (mkDate Y M d (h / 4 * 4) 0 0)
    else if mask = MASK_HALFDAY then some (mkDate Y M d (h / 12 * 12) 0 0)
    else if mask = MASK_DAY then some (mkDate Y M d 0 0 0)
    else if mask = MASK_MONTH then some (mkDate Y M 1 0 0 0)
    else if mask = MASK_QUARTER then some (mkDate Y (M / 3 * 3 + 1) 1 0 0 0)
    else if mask = MASK_YEAR then some (mkDate Y 1 1 0 0 0)
    else none
  masked.map (fun mk => (mk, mk = t))

/-- `TimeMask.Add` from src/timemask.go, lines 143-176: applies the mask
then adds the mask increment (the switch has no default, so an
unmatched mask returns the applied time unchanged). -/
def TimeMask.Add (mask : Int) (t : Int) : Option Int :=
  (TimeMask.Apply mask t).map fun r =>
    let t1 := r.1
    if mask = MASK_MINUTE then t1 + nsPerMinute
    else if mask = MASK_MINUTEx15 then t1 + 15 * nsPerMinute
    else if mask = MASK_HALFHOUR then t1 + 30 * nsPerMinute
    else if mask = MASK_HOUR then t1 + nsPerHour
    else if mask = MASK_HOURx4 then t1 + 4 * nsPerHour
    else if mask = MASK_HALFDAY then t1 + 12 * nsPerHour
    else if mask = MASK_DAY then t1 + 24 * nsPerHour
    else if mask = MASK_MONTH then
      let p := timeDate t1
      if p.2.1 = 12 then mkDate (p.1 + 1) 1 1 0 0 0
      else mkDate p.1 (p.2.1 + 1) 1 0 0 0
    else if mask = MASK_QUARTER then
      let p := timeDate t1
      if p.2.1 > 12 - 3 then mkDate (p.1 + 1) 1 1 0 0 0
      else mkDate p.1 (p.2.1 + p.2.1 / 3 * 3) 1 0 0 0
    else if mask = MASK_YEAR then
      let p := timeDate t1
      mkDate (p.1 + 1) 1 1 0 0 0
    else t1

/-- `TimeMask.Sub` from src/timemask.go, lines 179-215: applies the mask
then retreats by the mask increment. -/
def TimeMask.Sub (mask : Int) (t : Int) : Option Int :=
  (TimeMask.Apply mask t).map fun r =>
    let t1 := r.1
    if mask = MASK_MINUTE then t1 - nsPerMinute
    else if mask = MASK_MINUTEx15 then t1 - 15 * nsPerMinute
    else if mask = MASK_HALFHOUR then t1 - 30 * nsPerMinute
    else if mask = MASK_HOUR then t1 - nsPerHour
    else if mask = MASK_HOURx4 then t1 - 4 * nsPerHour
    else if mask = MASK_HALFDAY then t1 - 12 * nsPerHour
    else if mask = MASK_DAY then t1 - 24 * nsPerHour
    else if mask = MASK_MONTH then
      let p := timeDate t1
      if p.2.1 = 1 then mkDate (p.1 - 1) 12 1 0 0 0
      else mkDate p.1 (p.2.1 - 1) 1 0 0 0
    else if mask = MASK_QUARTER then
      let p := timeDate t1
      if p.2.1 ≤ 3 then mkDate (p.1 - 1) 12 1 0 0 0
      else mkDate p.1 (p.2.1 - p.2.1 / 3 * 3) 1 0 0 0
    else if mask = MASK_YEAR then
      let p := timeDate t1
      mkDate (p.1 - 1) 1 1 0 0 0
    else t1

/-! ## Duration (src/duration.go) -/

/-- Average-length duration constants from src/duration.go lines 12-18,
in nanoseconds: 1 year = 365.25 days = 8766 hours, 1 month = year/12. -/
def YearNs : Int := 8766 * nsPerHour

def MonthNs : Int := YearNs / 12

/-- `Duration` from src/duration.go: a signed elapsed magnitude in
nanoseconds plus the finiteness flag (infinite by default). -/
structure Duration where
  Duration : Int
  IsFinite : Bool
deriving DecidableEq, Repr

/-- Alias used where the name `Duration` is shadowed by the magnitude
field inside the `Duration` namespace. -/
abbrev GoDuration := Duration

/-- Modelled from the spec: `Abs` of the extended Duration type is used
by `ShiftIn` (src/timeslice.go lines 342-343) but its definition is not
under src/.  Per the spec (section 4.1): "Abs() -> Duration: magnitude
absolute value, finiteness preserved." -/
def Duration.Abs (d : GoDuration) : GoDuration :=
  ⟨|d.Duration|, d.IsFinite⟩

/-! ## TimeSlice (src/timeslice.go) -/

/-- Direction constants from src/timeslice.go lines 19-25. -/
def AntiChronological : Int := -1

def Undefined : Int := 0

def Chronological : Int := 1

/-- Compare constants from src/timeslice.go lines 31-37. -/
def DIFFERENT : Int := 0

def EQUAL : Int := 1

def OPPOSITE : Int := 2

/-- `TimeSlice` from src/timeslice.go line 91: a range of times bounded
by From and To, each possibly the zero sentinel (infinite). -/
structure TimeSlice where
  From : Int
  To : Int
deriving DecidableEq, Repr

/-- `MakeTimeSlice` from src/timeslice.go lines 102-108; `none` models
the panic on a zero anchor date. -/
def MakeTimeSlice (dte : Int) (d : Int) : Option TimeSlice :=
  if dte = 0 then none else some ⟨dte, dte + d⟩

/-- `TimeSlice.IsZero` from src/timeslice.go lines 468-470. -/
def TimeSlice.IsZero (ts : TimeSlice) : Prop :=
  ts.From = 0 ∧ ts.To = 0

instance (ts : TimeSlice) : Decidable ts.IsZero := by
  unfold TimeSlice.IsZero; infer_instance

/-- `TimeSlice.IsInfinite` from src/timeslice.go lines 460-465. -/
def TimeSlice.IsInfinite (ts : TimeSlice) : Prop :=
  ts.From = 0 ∨ ts.To = 0

instance (ts : TimeSlice) : Decidable ts.IsInfinite := by
  unfold TimeSlice.IsInfinite; infer_instance

/-- `TimeSlice.Duration` from src/timeslice.go lines 409-417 (named
`DurationOf` here because the structure field space is taken by the
embedded magnitude of `Duration`). -/
def TimeSlice.DurationOf (ts : TimeSlice) : Duration :=
  if ts.From = 0 ∨ ts.To = 0 then ⟨0, false⟩
  else ⟨ts.To - ts.From, true⟩

/-- `TimeSlice.Direction` from src/timeslice.go lines 496-513 (the root
timeline package): both bounds zero is Undefined, exactly one bound
zero is Chronological, otherwise the sign of To - From. -/
def TimeSlice.Direction (ts : TimeSlice) : Int :=
  if ts.From = 0 ∧ ts.To = 0 then Undefined
  else if ts.From = 0 ∨ ts.To = 0 then Chronological
  else if ts.To - ts.From < 0 then AntiChronological
  else if ts.To - ts.From > 0 then Chronological
  else Undefined

/-- `Direction` of the legacy package (src/timeslice/timeslice.go lines
180-200 and src/unnamed/part_003 lines 267-290): a zero From with a set
To is AntiChronological there. -/
def TimeSlice.DirectionV1 (ts : TimeSlice) : Int :=
  if ts.From = 0 ∧ ts.To = 0 then Undefined
  else if ts.From = 0 then AntiChronological
  else if ts.To = 0 then Chronological
  else if ts.To - ts.From < 0 then AntiChronological
  else if ts.To - ts.From > 0 then Chronological
  else Undefined

/-- `TimeSlice.Compare` from src/timeslice.go lines 484-491. -/
def TimeSlice.Compare (one another : TimeSlice) : Int :=
  if one.From = another.From ∧ one.To = another.To then EQUAL
  else if one.From = another.To ∧ one.To = another.From then OPPOSITE
  else DIFFERENT

/-- `TimeSlice.Bound` from src/timeslice.go lines 194-247: clamp a time
within the timeslice.  The two switch blocks of the source are the two
sequential if-chains. -/
def TimeSlice.Bound (thists : TimeSlice) (t : Int) : Int :=
  if thists.IsZero then t
  else if t = 0 then (if thists.From ≠ 0 then thists.From else thists.To)
  else
    let t1 :=
      if thists.From ≠ 0 then
        if thists.To = 0 then (if t < thists.From then thists.From else t)
        else if thists.From < thists.To then (if t < thists.From then thists.From else t)
        else if thists.To < thists.From then (if thists.From < t then thists.From else t)
        else (if t ≠ thists.From then thists.From else t)
      else t
    if thists.To ≠ 0 then
      if thists.From = 0 then (if thists.To < t1 then thists.To else t1)
      else if thists.From < thists.To then (if thists.To < t1 then thists.To else t1)
      else if thists.To < thists.From then (if t1 < thists.To then thists.To else t1)
      else (if t1 ≠ thists.To then thists.To else t1)
    else t1

/-- `TimeSlice.ExtendFrom` from src/timeslice.go lines 183-188. -/
def TimeSlice.ExtendFrom (ts : TimeSlice) (dur : Int) : TimeSlice :=
  if ts.From ≠ 0 then ⟨ts.From + dur, ts.To⟩ else ts

/-- `TimeSlice.ExtendTo` from src/timeslice.go lines 299-304. -/
def TimeSlice.ExtendTo (ts : TimeSlice) (dur : Int) : TimeSlice :=
  if ts.To ≠ 0 then ⟨ts.From, ts.To + dur⟩ else ts

/-- `TimeSlice.ForceDirection` from src/timeslice.go lines 310-322. -/
def TimeSlice.ForceDirection (ts : TimeSlice) (dir : Int) : TimeSlice :=
  let d := ts.Direction
  if d = Undefined then ts
  else if d ≠ dir then ⟨ts.To, ts.From⟩ else ts

/-- `TimeSlice.ShiftIn` from src/timeslice.go lines 340-389: shift both
boundaries by `shiftby` keeping the slice within `tsbound`; `none`
models the nil failure result. -/
def TimeSlice.ShiftIn (toshift : TimeSlice) (shiftby : Int) (tsbound : TimeSlice) :
    Option TimeSlice :=
  let absdurtoshift := toshift.DurationOf.Abs
  let absdurtsbound := tsbound.DurationOf.Abs
  if absdurtoshift.IsFinite ∧ absdurtsbound.IsFinite ∧
      absdurtsbound.Duration < absdurtoshift.Duration then none
  else
    let shifted := (toshift.ExtendFrom shiftby).ExtendTo shiftby
    if tsbound.IsZero ∨ shifted.IsZero then some shifted
    else
      let nb := tsbound.ForceDirection Chronological
      let dirtoshift := shifted.Direction
      let tempshift0 := shifted.ForceDirection Chronological
      let tempshift1 : TimeSlice := ⟨nb.Bound tempshift0.From, nb.Bound tempshift0.To⟩
      let tempshift2 :=
        if 0 < absdurtoshift.Duration then
          let ta : TimeSlice :=
            if tempshift1.From = nb.From then
              ⟨tempshift1.From, tempshift1.From + absdurtoshift.Duration⟩
            else tempshift1
          if ta.To = nb.To then ⟨ta.To - absdurtoshift.Duration, ta.To⟩ else ta
        else tempshift1
      let tempshift3 :=
        if dirtoshift ≠ Undefined then tempshift2.ForceDirection dirtoshift
        else tempshift2
      some tempshift3

/-- Outcome of `Split`: `fatal` models both `log.Fatalf` on a
non-positive duration and the `MakeTimeSlice` panic; `errInfinite`
models the error returned for an infinite timeslice. -/
inductive SplitResult where
  | fatal : SplitResult
  | errInfinite : SplitResult
  | ok : List TimeSlice → SplitResult
deriving DecidableEq, Repr

/-- The `for` loop of `TimeSlice.Split` (src/timeslice.go lines 596-608),
with explicit fuel; the outer `none` models running out of fuel, that
is a computation that has not terminated yet. -/
def splitLoop : Nat → Int → Int → Int → Int → List TimeSlice →
    Option SplitResult
  | 0, _, _, _, _, _ => none
  | fuel + 1, dur, d, fr, tto, acc =>
    match MakeTimeSlice fr d with
    | none => some SplitResult.fatal
    | some split =>
      if (0 < dur ∧ tto < split.To) ∨ (dur < 0 ∧ split.To < tto) then
        let split2 : TimeSlice := ⟨split.From, tto⟩
        some (SplitResult.ok
          (if split2.DurationOf.Duration ≠ 0 then acc ++ [split2] else acc))
      else splitLoop fuel dur d split.To tto (acc ++ [split])

/-- `TimeSlice.Split` from src/timeslice.go lines 582-610. -/
def TimeSlice.Split (ts : TimeSlice) (d : Int) (fuel : Nat) : Option SplitResult :=
  if d ≤ 0 then some SplitResult.fatal
  else if ts.IsInfinite then some SplitResult.errInfinite
  else
    let dur := ts.DurationOf.Duration
    let d2 := if dur < 0 then -d else d
    splitLoop fuel dur d2 ts.From ts.To []

/-- `TimeSlice.Scan` from src/timeslice.go lines 670-743.  The result
pairs the returned time with the new value of the caller-owned cursor;
`none` models the `log.Fatalf` abort on an invalid mask. -/
def TimeSlice.Scan (ts : TimeSlice) (cursor : Int) (mask : Int) (fB : Bool) :
    Option (Int × Int) :=
  if mask < MASK_min ∨ MASK_max < mask then none
  else if ts.From = 0 then some (0, cursor)
  else
    let start := cursor = 0
    let nc0 := if start then ts.From else cursor
    if ts.Direction = AntiChronological then
      match TimeMask.Apply mask nc0 with
      | none => none
      | some r =>
        if start ∧ (fB = true ∨ r.2 = true ∨ TimeMask.Add mask r.1 = some ts.From) then
          some (ts.From, ts.From)
        else
          match (if r.2 = true then TimeMask.Sub mask r.1 else some r.1) with
          | none => none
          | some nc2 =>
            let nc3 := if nc2 < ts.To then
                (if fB = true ∧ cursor ≠ ts.To then ts.To else 0) else nc2
            some (nc3, nc3)
    else
      match TimeMask.Apply mask nc0 with
      | none => none
      | some r =>
        if start ∧ (fB = true ∨ r.2 = true) then
          some (ts.From, ts.From)
        else
          match TimeMask.Add mask r.1 with
          | none => none
          | some nc2 =>
            let nc3 := if ts.To < nc2 then
                (if fB = true ∧ cursor ≠ ts.To then ts.To else 0) else nc2
            some (nc3, nc3)

/-! ## FormatOrderOfMagnitude (src/duration.go lines 107-172) -/

/-- The six ordered components of the order-of-magnitude decomposition:
years, months, days, hours, minutes, seconds (average-length constants
for years and months). -/
def oomComponents : List (Int × String) :=
  [(YearNs, "Y"), (MonthNs, "M"), (nsPerDay, "d"),
   (nsPerHour, "h"), (nsPerMinute, "m"), (nsPerSecond, "s")]

/-- One iteration of the formatting loop of `FormatOrderOfMagnitude`
(src/duration.go lines 131-170).  The state is (remaining duration,
order counter, output string, dust marker). -/
def oomStep (maxorder : Nat) (st : Int × Nat × String × String)
    (c : Int × String) : Int × Nat × String × String :=
  let leftd := st.1
  let order := st.2.1
  let str := st.2.2.1
  let dust := st.2.2.2
  let cint := leftd / c.1
  let leftd := leftd - cint * c.1
  let order := if 0 < order then order + 1 else order
  if cint ≠ 0 then
    if order ≤ maxorder then
      (leftd, (if order = 0 then 1 else order), str ++ toString cint ++ c.2, dust)
    else (leftd, order, str, "~")
  else (leftd, order, str, dust)

/-- `Duration.FormatOrderOfMagnitude` from src/duration.go lines
107-172; the float component divisions of the source are exact integer
truncations here (the quantities divided are non-negative). -/
def Duration.FormatOrderOfMagnitude (leftd : GoDuration) (maxorder : Nat) : String :=
  if leftd.IsFinite = false then "infinite"
  else if leftd.Duration = 0 then "0"
  else
    let str0 := if leftd.Duration < 0 then "-" else ""
    let dur0 := if leftd.Duration < 0 then -leftd.Duration else leftd.Duration
    if dur0 < nsPerSecond then str0 ++ "0s~"
    else
      let mo := if maxorder < 1 then 1 else maxorder
      let r := oomComponents.foldl (oomStep mo) (dur0, 0, str0, "")
      r.2.2.1 ++ r.2.2.2

/-! ## Claims -/

/-- C7: `FormatOrderOfMagnitude` with maxOrder 3 applied to the finite
duration 1 month + 4 days + 2 hours + 35 minutes + 25 seconds (with the
average-length constants 1 year = 365.25 days, 1 month = year/12)
returns exactly "1M4d2h~": only the first 3 non-zero components are
emitted and the non-zero remainder produces the trailing tilde. -/
theorem C7_format_order_of_magnitude_concrete :
    Duration.FormatOrderOfMagnitude
      ⟨MonthNs + 4 * nsPerDay + 2 * nsPerHour + 35 * nsPerMinute + 25 * nsPerSecond, true⟩ 3
      = "1M4d2h~" := by decide

/-- C1 counterexample: on the slice whose only set bound is To (From is
the zero sentinel), the root package `Direction` returns Chronological
and not AntiChronological as the claim states. -/
theorem C1_direction_to_only_cex :
    TimeSlice.Direction ⟨0, 5⟩ ≠ AntiChronological := by decide

/-- C1 amended: when exactly one bound of a TimeSlice is the zero
sentinel, the root package `Direction` returns Chronological regardless
of which bound is set; the legacy package `Direction`
(src/timeslice/timeslice.go) returns Chronological when From is the
only bound set and AntiChronological when To is the only bound set. -/
theorem C1_direction_half_infinite :
    (∀ ts : TimeSlice, (ts.From = 0 ∧ ts.To ≠ 0) ∨ (ts.From ≠ 0 ∧ ts.To = 0) →
      ts.Direction = Chronological)
    ∧ (∀ ts : TimeSlice, ts.From ≠ 0 → ts.To = 0 → ts.DirectionV1 = Chronological)
    ∧ (∀ ts : TimeSlice, ts.From = 0 → ts.To ≠ 0 → ts.DirectionV1 = AntiChronological) := by
  refine ⟨fun ts h => ?_, fun ts h1 h2 => ?_, fun ts h1 h2 => ?_⟩ <;>
    simp only [TimeSlice.Direction, TimeSlice.DirectionV1, Chronological,
      AntiChronological, Undefined] <;>
    split_ifs <;> omega

/-- C1 witness: the amended theorem applied to the two half-infinite
slices (0, 5) and (7, 0). -/
theorem C1_direction_half_infinite_witness :
    TimeSlice.Direction ⟨0, 5⟩ = Chronological ∧
    TimeSlice.DirectionV1 ⟨7, 0⟩ = Chronological ∧
    TimeSlice.DirectionV1 ⟨0, 5⟩ = AntiChronological :=
  ⟨C1_direction_half_infinite.1 ⟨0, 5⟩ (Or.inl ⟨rfl, by decide⟩),
   C1_direction_half_infinite.2.1 ⟨7, 0⟩ (by decide) rfl,
   C1_direction_half_infinite.2.2 ⟨0, 5⟩ rfl (by decide)⟩

/-- C3: the quarter mask does not floor.  At 0001-03-15 00:00 UTC
(day 73), `Apply MASK_QUARTER` returns 0001-04-01 (day 90), an instant
strictly after the input, with exactMatch false — contradicting the
claim that the masked instant is the start of the enclosing period and
never after the input. -/
theorem C3_quarter_apply_after_input :
    TimeMask.Apply MASK_QUARTER (73 * nsPerDay) = some (90 * nsPerDay, false) ∧
    (73 * nsPerDay : Int) < 90 * nsPerDay := by decide

/-- C4: the quarter mask step is not strictly positive.  At 0002-01-15
(day 379), `Apply MASK_QUARTER` floors to 0002-01-01 (day 365) and
`Add MASK_QUARTER` returns the very same instant, so Add is not
strictly after Apply. -/
theorem C4_quarter_add_equals_apply :
    TimeMask.Add MASK_QUARTER (379 * nsPerDay) = some (365 * nsPerDay) ∧
    TimeMask.Apply MASK_QUARTER (379 * nsPerDay) = some (365 * nsPerDay, false) := by decide

/-- C10: with the quarter mask, `Scan` with fBoundaries = true on the
finite slice 0002-01-02 .. 0002-01-15 and the cursor already equal to
ts.To returns 0002-01-01 (day 365, a non-zero instant before the
cursor) instead of the zero sentinel. -/
theorem C10_scan_quarter_cursor_at_to :
    TimeSlice.Scan ⟨366 * nsPerDay, 379 * nsPerDay⟩ (379 * nsPerDay) MASK_QUARTER true
      = some (365 * nsPerDay, 365 * nsPerDay) ∧ (365 * nsPerDay : Int) ≠ 0 := by decide

/-- C5 counterexample: the slice with a set From and an infinite To has
an infinite boundary, yet `Scan` started with a zero cursor returns the
From bound (a non-zero instant), not the zero sentinel. -/
theorem C5_scan_infinite_end_cex :
    TimeSlice.Scan ⟨nsPerMinute, 0⟩ 0 MASK_MINUTE true
      = some (nsPerMinute, nsPerMinute) ∧ (nsPerMinute : Int) ≠ 0 := by decide

/-- C5 amended: for every TimeSlice whose From bound is the zero
sentinel (an infinite beginning), every valid mask and either boundary
flag, `Scan` with a cursor initialized to the zero sentinel immediately
returns the zero sentinel. -/
theorem C5_scan_infinite_begin_zero :
    ∀ (ts : TimeSlice) (mask : Int) (fB : Bool),
      MASK_min ≤ mask → mask ≤ MASK_max → ts.From = 0 →
      ts.Scan 0 mask fB = some (0, 0) := by
  intro ts mask fB h1 h2 h0
  unfold TimeSlice.Scan
  rw [if_neg (by simp only [MASK_min, MASK_max] at h1 h2 ⊢; omega), if_pos h0]

/-- C5 witness: the amended theorem applied to the slice (0, 5) with the
minute mask. -/
theorem C5_scan_infinite_begin_zero_witness :
    TimeSlice.Scan ⟨0, 5⟩ 0 MASK_MINUTE true = some (0, 0) :=
  C5_scan_infinite_begin_zero ⟨0, 5⟩ MASK_MINUTE true (by decide) (by decide) rfl

set_option maxHeartbeats 1000000 in
/-- Closed-form description of `Bound`: per slice shape, a plain clamp. -/
theorem Bound_eq (ts : TimeSlice) (t : Int) :
    ts.Bound t =
      if ts.From = 0 ∧ ts.To = 0 then t
      else if t = 0 then (if ts.From ≠ 0 then ts.From else ts.To)
      else if ts.To = 0 then (if t < ts.From then ts.From else t)
      else if ts.From = 0 then (if ts.To < t then ts.To else t)
      else if ts.From < ts.To then
        (if t < ts.From then ts.From else if ts.To < t then ts.To else t)
      else if ts.To < ts.From then
        (if ts.From < t then ts.From else if t < ts.To then ts.To else t)
      else ts.From := by
  unfold TimeSlice.Bound TimeSlice.IsZero
  dsimp only
  split_ifs <;> omega

/-- `Bound` on the zero slice is the identity. -/
theorem bound_zero_slice (ts : TimeSlice) (t : Int) (hf : ts.From = 0) (ht : ts.To = 0) :
    ts.Bound t = t := by
  rw [Bound_eq]; split_ifs <;> omega

/-- `Bound` on a slice with only From set clamps from below. -/
theorem bound_from_only (ts : TimeSlice) (t : Int) (hf : ts.From ≠ 0) (ht : ts.To = 0) :
    ts.Bound t = if t = 0 then ts.From else if t < ts.From then ts.From else t := by
  rw [Bound_eq]; split_ifs <;> omega

/-- `Bound` on a slice with only To set clamps from above. -/
theorem bound_to_only (ts : TimeSlice) (t : Int) (hf : ts.From = 0) (ht : ts.To ≠ 0) :
    ts.Bound t = if t = 0 then ts.To else if ts.To < t then ts.To else t := by
  rw [Bound_eq]; split_ifs <;> omega

/-- `Bound` on a finite chronological slice is the usual clamp. -/
theorem bound_chrono (ts : TimeSlice) (t : Int) (hf : ts.From ≠ 0) (ht : ts.To ≠ 0)
    (hlt : ts.From < ts.To) :
    ts.Bound t =
      if t = 0 then ts.From else if t < ts.From then ts.From
      else if ts.To < t then ts.To else t := by
  rw [Bound_eq]; split_ifs <;> omega

/-- `Bound` on a finite anti-chronological slice clamps into [To, From]. -/
theorem bound_anti (ts : TimeSlice) (t : Int) (hf : ts.From ≠ 0) (ht : ts.To ≠ 0)
    (hlt : ts.To < ts.From) :
    ts.Bound t =
      if t = 0 then ts.From else if ts.From < t then ts.From
      else if t < ts.To then ts.To else t := by
  rw [Bound_eq]; split_ifs <;> omega

/-- `Bound` on a single-instant slice always returns that instant. -/
theorem bound_single (ts : TimeSlice) (t : Int) (hf : ts.From ≠ 0) (heq : ts.From = ts.To) :
    ts.Bound t = ts.From := by
  rw [Bound_eq]; split_ifs <;> omega

/-- `Bound` is idempotent (shared helper). -/
theorem bound_idem (ts : TimeSlice) (t : Int) : ts.Bound (ts.Bound t) = ts.Bound t := by
  rcases eq_or_ne ts.From 0 with hf | hf <;> rcases eq_or_ne ts.To 0 with ht | ht
  · rw [bound_zero_slice ts _ hf ht]
  · rw [bound_to_only ts _ hf ht, bound_to_only ts t hf ht]; split_ifs <;> omega
  · rw [bound_from_only ts _ hf ht, bound_from_only ts t hf ht]; split_ifs <;> omega
  · rcases lt_trichotomy ts.From ts.To with hlt | heq | hgt
    · rw [bound_chrono ts _ hf ht hlt, bound_chrono ts t hf ht hlt]; split_ifs <;> omega
    · rw [bound_single ts _ hf heq, bound_single ts t hf heq]
    · rw [bound_anti ts _ hf ht hgt, bound_anti ts t hf ht hgt]; split_ifs <;> omega

/-- C9: `Bound` is idempotent: for every TimeSlice (zero, half-infinite,
single-instant, chronological or anti-chronological) and every instant
(including the zero sentinel), binding the bounded time again leaves it
unchanged. -/
theorem C9_bound_idempotent (ts : TimeSlice) (t : Int) :
    ts.Bound (ts.Bound t) = ts.Bound t :=
  bound_idem ts t

/-- One unfolding of the split loop. -/
theorem splitLoop_succ (fuel : Nat) (dur d fr tto : Int) (acc : List TimeSlice) :
    splitLoop (fuel + 1) dur d fr tto acc =
      if fr = 0 then some SplitResult.fatal
      else if (0 < dur ∧ tto < fr + d) ∨ (dur < 0 ∧ fr + d < tto) then
        some (SplitResult.ok
          (if (TimeSlice.DurationOf ⟨fr, tto⟩).Duration ≠ 0 then acc ++ [⟨fr, tto⟩] else acc))
      else splitLoop fuel dur d (fr + d) tto (acc ++ [⟨fr, fr + d⟩]) := by
  by_cases h0 : fr = 0
  · simp only [splitLoop, MakeTimeSlice, if_pos h0]
  · simp only [splitLoop, MakeTimeSlice, if_neg h0]

/-- With a zero-duration slice, the split loop never reaches its exit
condition: it keeps appending d-length slices forever (the loop guard
uses strict comparisons that a zero dur never enables). -/
theorem splitLoop_zero_dur_none (fuel : Nat) : ∀ (fr : Int) (acc : List TimeSlice),
    0 < fr → splitLoop fuel 0 3 fr 5 acc = none := by
  induction fuel with
  | zero => intro fr acc h; rfl
  | succ n ih =>
    intro fr acc h
    rw [splitLoop_succ, if_neg (by omega), if_neg (by simp)]
    exact ih (fr + 3) (acc ++ [⟨fr, fr + 3⟩]) (by omega)

/-- C6 counterexample: on the single-instant (zero-duration) finite
slice [5, 5] with period 3 > 0 = |Duration|, `Split` does not succeed
with one sub-slice equal to the slice: the loop never terminates, so no
amount of fuel makes it return a result at all. -/
theorem C6_split_single_instant_cex :
    ¬ ∃ (fuel : Nat) (l : List TimeSlice),
        TimeSlice.Split ⟨5, 5⟩ 3 fuel = some (SplitResult.ok l) := by
  rintro ⟨fuel, l, h⟩
  have h2 : TimeSlice.Split ⟨5, 5⟩ 3 fuel = splitLoop fuel 0 3 5 5 [] := by
    simp [TimeSlice.Split, TimeSlice.IsInfinite, TimeSlice.DurationOf]
  rw [h2, splitLoop_zero_dur_none fuel 5 [] (by omega)] at h
  exact Option.noConfusion h

/-- C6 amended: for every finite TimeSlice s with distinct bounds
(non-zero duration) and every period d > 0 with |s.Duration()| ≤ d,
`Split(d)` succeeds (for any sufficient loop fuel) with exactly one
sub-slice, and that sub-slice compares EQUAL to s (same From and To,
direction preserved). -/
theorem C6_split_one_slice (ts : TimeSlice) (d : Int) (fuel : Nat)
    (hf : ts.From ≠ 0) (ht : ts.To ≠ 0) (hne : ts.To ≠ ts.From)
    (hd : 0 < d) (hge : |ts.To - ts.From| ≤ d) (hfuel : 2 ≤ fuel) :
    ts.Split d fuel = some (SplitResult.ok [ts]) ∧
      TimeSlice.Compare ts ts = EQUAL := by
  obtain ⟨a, b⟩ := ts
  simp only at hf ht hne ⊢
  have h2 := abs_le.mp hge
  simp only at h2
  clear hge
  obtain ⟨n, rfl⟩ : ∃ n, fuel = n + 2 := ⟨fuel - 2, by omega⟩
  refine ⟨?_, by simp [TimeSlice.Compare, EQUAL]⟩
  have hred : TimeSlice.Split ⟨a, b⟩ d (n + 2) =
      splitLoop (n + 2) (b - a) (if b - a < 0 then -d else d) a b [] := by
    rw [TimeSlice.Split, if_neg (by omega), if_neg (by simp [TimeSlice.IsInfinite, hf, ht])]
    simp [TimeSlice.DurationOf, hf, ht]
  rw [hred]
  have hdnz : (TimeSlice.DurationOf ⟨a, b⟩).Duration ≠ 0 := by
    simp [TimeSlice.DurationOf, hf, ht]; omega
  rcases lt_or_gt_of_ne hne with hba | hba
  · -- anti-chronological: b < a, step is -d
    rw [if_pos (by omega)]
    rcases lt_or_eq_of_le h2.1 with hlt | heq
    · -- a - b < d: one iteration
      rw [splitLoop_succ, if_neg hf, if_pos (Or.inr ⟨by omega, by omega⟩), if_pos hdnz]
      simp
    · -- a - b = d: two iterations
      rw [splitLoop_succ, if_neg hf, if_neg (by omega)]
      have hab : a + -d = b := by omega
      rw [splitLoop_succ, hab, if_neg ht]
      rw [if_pos (Or.inr ⟨by omega, by omega⟩)]
      rw [if_neg (by simp [TimeSlice.DurationOf, ht])]
      simp
  · -- chronological: a < b, step is d
    rw [if_neg (by omega)]
    rcases lt_or_eq_of_le h2.2 with hlt | heq
    · -- b - a < d: one iteration
      rw [splitLoop_succ, if_neg hf, if_pos (Or.inl ⟨by omega, by omega⟩), if_pos hdnz]
      simp
    · -- b - a = d: two iterations
      rw [splitLoop_succ, if_neg hf, if_neg (by omega)]
      have hab : a + d = b := by omega
      rw [splitLoop_succ, hab, if_neg ht]
      rw [if_pos (Or.inl ⟨by omega, by omega⟩)]
      rw [if_neg (by simp [TimeSlice.DurationOf, ht])]
      simp

/-- C6 witness: the amended theorem applied to the slice [1, 10] with
period 20 and fuel 2. -/
theorem C6_split_one_slice_witness :
    TimeSlice.Split ⟨1, 10⟩ 20 2 = some (SplitResult.ok [⟨1, 10⟩]) ∧
      TimeSlice.Compare ⟨1, 10⟩ ⟨1, 10⟩ = EQUAL :=
  C6_split_one_slice ⟨1, 10⟩ 20 2 (by decide) (by decide) (by decide) (by decide)
    (by decide) (by decide)

/-- For a valid mask, `Apply` never hits the panicking default branch. -/
theorem apply_isSome (mask t : Int) (h1 : MASK_min ≤ mask) (h2 : mask ≤ MASK_max) :
    ∃ p, TimeMask.Apply mask t = some p := by
  simp only [MASK_min, MASK_max] at h1 h2
  interval_cases mask <;>
    simp [TimeMask.Apply, MASK_NONE, MASK_MINUTE, MASK_MINUTEx15, MASK_HALFHOUR, MASK_HOUR,
      MASK_HOURx4, MASK_HALFDAY, MASK_DAY, MASK_MONTH, MASK_QUARTER, MASK_YEAR]

/-- For a valid mask, `Add` returns a value. -/
theorem add_isSome (mask t : Int) (h1 : MASK_min ≤ mask) (h2 : mask ≤ MASK_max) :
    ∃ q, TimeMask.Add mask t = some q := by
  obtain ⟨p, hp⟩ := apply_isSome mask t h1 h2
  exact ⟨_, by rw [TimeMask.Add, hp]; rfl⟩

/-- For a valid mask, `Sub` returns a value. -/
theorem sub_isSome (mask t : Int) (h1 : MASK_min ≤ mask) (h2 : mask ≤ MASK_max) :
    ∃ q, TimeMask.Sub mask t = some q := by
  obtain ⟨p, hp⟩ := apply_isSome mask t h1 h2
  exact ⟨_, by rw [TimeMask.Sub, hp]; rfl⟩

/-- With both running bounds strictly after the zero time and a step
sign-matched to the duration, the split loop never panics. -/
theorem splitLoop_no_fatal (fuel : Nat) : ∀ (dur d fr tto : Int) (acc : List TimeSlice),
    0 < fr → 0 < tto → (dur < 0 → d < 0) → (0 ≤ dur → 0 < d) →
    splitLoop fuel dur d fr tto acc ≠ some SplitResult.fatal := by
  induction fuel with
  | zero => intro dur d fr tto acc _ _ _ _; simp [splitLoop]
  | succ n ih =>
    intro dur d fr tto acc h1 h2 h3 h4
    rw [splitLoop_succ, if_neg (by omega)]
    by_cases hg : (0 < dur ∧ tto < fr + d) ∨ (dur < 0 ∧ fr + d < tto)
    · rw [if_pos hg]; split_ifs <;> simp
    · rw [if_neg hg]
      refine ih dur d (fr + d) tto _ ?_ h2 h3 h4
      rcases lt_or_le dur 0 with hdur | hdur
      · have := h3 hdur; omega
      · have := h4 hdur; omega

/-- For a valid mask, `Scan` never aborts. -/
theorem scan_ne_none (ts : TimeSlice) (cursor mask : Int) (fB : Bool)
    (h1 : MASK_min ≤ mask) (h2 : mask ≤ MASK_max) :
    ts.Scan cursor mask fB ≠ none := by
  have hv : ¬(mask < MASK_min ∨ MASK_max < mask) := by
    simp only [MASK_min, MASK_max] at h1 h2 ⊢; omega
  simp only [TimeSlice.Scan]
  rw [if_neg hv]
  by_cases h0 : ts.From = 0
  · rw [if_pos h0]; simp
  · rw [if_neg h0]
    obtain ⟨p, hp⟩ := apply_isSome mask (if cursor = 0 then ts.From else cursor) h1 h2
    obtain ⟨q, hq⟩ := add_isSome mask p.1 h1 h2
    obtain ⟨r, hr⟩ := sub_isSome mask p.1 h1 h2
    by_cases hdir : ts.Direction = AntiChronological
    · rw [if_pos hdir, hp]
      simp only
      split_ifs <;> simp [hq, hr]
    · rw [if_neg hdir, hp]
      simp only
      split_ifs <;> simp [hq]

/-- C8 counterexample: `Split` can abort even with a positive period:
on the slice from 5 ns before the zero time to 5 ns after it, with
d = 5 > 0, the second loop iteration constructs a sub-slice anchored
exactly at the zero sentinel and MakeTimeSlice panics. -/
theorem C8_split_zero_crossing_cex :
    (0 : Int) < 5 ∧ TimeSlice.Split ⟨-5, 5⟩ 5 2 = some SplitResult.fatal := by decide

/-- C8 amended: MakeTimeSlice panics exactly when the anchor is the
zero sentinel; Split aborts whenever d ≤ 0, and with d > 0 it never
aborts provided both bounds are strictly after the zero time (a slice
whose walk crosses the zero instant can still hit the MakeTimeSlice
panic); Scan aborts exactly when the mask is outside the valid range
(including the none mask). -/
theorem C8_precondition_aborts :
    (∀ dte d : Int, MakeTimeSlice dte d = none ↔ dte = 0)
    ∧ (∀ (ts : TimeSlice) (d : Int) (fuel : Nat), d ≤ 0 →
        ts.Split d fuel = some SplitResult.fatal)
    ∧ (∀ (ts : TimeSlice) (d : Int) (fuel : Nat),
        0 < d → 0 < ts.From → 0 < ts.To →
        ts.Split d fuel ≠ some SplitResult.fatal)
    ∧ (∀ (ts : TimeSlice) (cursor mask : Int) (fB : Bool),
        (ts.Scan cursor mask fB = none ↔ (mask < MASK_min ∨ MASK_max < mask))) := by
  refine ⟨?_, ?_, ?_, ?_⟩
  · intro dte d
    rw [MakeTimeSlice]
    split_ifs with h <;> simp [h]
  · intro ts d fuel hd
    rw [TimeSlice.Split, if_pos hd]
  · intro ts d fuel hd hf ht
    rw [TimeSlice.Split, if_neg (by omega),
      if_neg (by simp [TimeSlice.IsInfinite]; omega)]
    have hnz : ¬(ts.From = 0 ∨ ts.To = 0) := by omega
    simp only [TimeSlice.DurationOf, if_neg hnz]
    refine splitLoop_no_fatal fuel _ _ _ _ _ hf ht ?_ ?_
    · intro h; rw [if_pos h]; omega
    · intro h; rw [if_neg (by omega)]; omega
  · intro ts cursor mask fB
    constructor
    · intro hnone
      by_cases hv : mask < MASK_min ∨ MASK_max < mask
      · exact hv
      · exact absurd hnone (scan_ne_none ts cursor mask fB (by omega) (by omega))
    · intro hv
      rw [TimeSlice.Scan, if_pos hv]

/-- C8 witness: the amended theorem applied to concrete inputs
(zero anchor; negative period; positive period on a positive slice;
the none mask). -/
theorem C8_precondition_aborts_witness :
    (MakeTimeSlice 0 5 = none ↔ (0 : Int) = 0) ∧
    TimeSlice.Split ⟨1, 5⟩ (-1) 3 = some SplitResult.fatal ∧
    TimeSlice.Split ⟨1, 5⟩ 2 3 ≠ some SplitResult.fatal ∧
    (TimeSlice.Scan ⟨1, 5⟩ 7 0 true = none ↔ ((0 : Int) < MASK_min ∨ MASK_max < (0 : Int))) :=
  ⟨C8_precondition_aborts.1 0 5,
   C8_precondition_aborts.2.1 ⟨1, 5⟩ (-1) 3 (by decide),
   C8_precondition_aborts.2.2.1 ⟨1, 5⟩ 2 3 (by decide) (by decide) (by decide),
   C8_precondition_aborts.2.2.2 ⟨1, 5⟩ 7 0 true⟩

/-- ForceDirection to Chronological only swaps a finite anti-chronological
slice. -/
theorem forceChrono_eq (b : TimeSlice) :
    b.ForceDirection Chronological =
      if b.From ≠ 0 ∧ b.To ≠ 0 ∧ b.To < b.From then ⟨b.To, b.From⟩ else b := by
  obtain ⟨F, T⟩ := b
  unfold TimeSlice.ForceDirection TimeSlice.Direction
  simp only [Chronological, AntiChronological, Undefined]
  split_ifs <;>
    first | rfl | omega | contradiction | (exfalso; omega) | (simp only [TimeSlice.mk.injEq, and_true, true_and, eq_self_iff_true]; try omega)

/-- Direction of a slice with two set bounds is the sign of To - From. -/
theorem direction_finite (x y : Int) (hx : x ≠ 0) (hy : y ≠ 0) :
    TimeSlice.Direction ⟨x, y⟩ =
      if y < x then AntiChronological
      else if x < y then Chronological else Undefined := by
  unfold TimeSlice.Direction
  simp only [AntiChronological, Chronological, Undefined]
  split_ifs <;> omega

/-- Forcing a direction on a slice running forward keeps or swaps it
according to the requested direction. -/
theorem force_pos_general (F T dir : Int) (hFT : F < T)
    (hd : dir = Chronological ∨ dir = AntiChronological) :
    TimeSlice.ForceDirection ⟨F, T⟩ dir =
      if dir = Chronological then (⟨F, T⟩ : TimeSlice) else ⟨T, F⟩ := by
  rcases hd with rfl | rfl <;>
    · unfold TimeSlice.ForceDirection TimeSlice.Direction
      simp only [Chronological, AntiChronological, Undefined]
      split_ifs <;>
        first | rfl | omega | contradiction | (exfalso; omega)

set_option maxHeartbeats 4000000 in
/-- Core of the ShiftIn contract: after normalizing the bound to [P, Q]
(one of the three non-zero shapes) and the working slice to the
chronological [u, v] with v = u + D, the clamp-and-re-anchor step
followed by the direction restore yields a slice of signed duration D
in the requested direction, whose bounds (when they avoid the zero
sentinel) are fixpoints of Bound. -/
theorem shiftin_core (P Q u v D dir : Int) (res : TimeSlice)
    (hD : 0 < D) (huv : v = u + D) (hu : u ≠ 0) (hv : v ≠ 0)
    (hdir : dir = Chronological ∨ dir = AntiChronological)
    (hshape : (P = 0 ∧ Q ≠ 0) ∨ (P ≠ 0 ∧ Q = 0) ∨ (P ≠ 0 ∧ Q ≠ 0 ∧ P ≤ Q ∧ D ≤ Q - P))
    (hrf : res.From ≠ 0) (hrt : res.To ≠ 0)
    (hres : TimeSlice.ForceDirection
      (if (if TimeSlice.Bound ⟨P, Q⟩ u = P then TimeSlice.Bound ⟨P, Q⟩ u + D
           else TimeSlice.Bound ⟨P, Q⟩ v) = Q
       then ⟨(if TimeSlice.Bound ⟨P, Q⟩ u = P then TimeSlice.Bound ⟨P, Q⟩ u + D
              else TimeSlice.Bound ⟨P, Q⟩ v) - D,
             (if TimeSlice.Bound ⟨P, Q⟩ u = P then TimeSlice.Bound ⟨P, Q⟩ u + D
              else TimeSlice.Bound ⟨P, Q⟩ v)⟩
       else if TimeSlice.Bound ⟨P, Q⟩ u = P
            then ⟨TimeSlice.Bound ⟨P, Q⟩ u, TimeSlice.Bound ⟨P, Q⟩ u + D⟩
            else ⟨TimeSlice.Bound ⟨P, Q⟩ u, TimeSlice.Bound ⟨P, Q⟩ v⟩) dir = res) :
    res.To - res.From = (if dir = Chronological then D else -D) ∧
    TimeSlice.Bound ⟨P, Q⟩ res.From = res.From ∧
    TimeSlice.Bound ⟨P, Q⟩ res.To = res.To := by
  subst huv
  rcases hdir with rfl | rfl <;> rcases hshape with ⟨h1, h2⟩ | ⟨h1, h2⟩ | ⟨h1, h2, h3, h4⟩ <;>
    (first
      | rw [bound_chrono ⟨P, Q⟩ u (by dsimp only; omega) (by dsimp only; omega)
              (by dsimp only; omega),
            bound_chrono ⟨P, Q⟩ (u + D) (by dsimp only; omega) (by dsimp only; omega)
              (by dsimp only; omega)] at hres
      | rw [bound_to_only ⟨P, Q⟩ u (by dsimp only; omega) (by dsimp only; omega),
            bound_to_only ⟨P, Q⟩ (u + D) (by dsimp only; omega) (by dsimp only; omega)] at hres
      | rw [bound_from_only ⟨P, Q⟩ u (by dsimp only; omega) (by dsimp only; omega),
            bound_from_only ⟨P, Q⟩ (u + D) (by dsimp only; omega)
              (by dsimp only; omega)] at hres) <;>
    (try dsimp only at hres) <;>
    split_ifs at hres <;>
      first
        | (exfalso; omega)
        | (rw [force_pos_general _ _ _ (by omega)
               (by first | exact Or.inl rfl | exact Or.inr rfl)] at hres
           (first | rw [if_pos rfl] at hres | rw [if_neg (by decide)] at hres)
           subst hres
           dsimp only at hrf hrt ⊢
           refine ⟨by (first | rw [if_pos rfl] | rw [if_neg (by decide)]); omega, ?_, ?_⟩ <;>
             (first
               | (rw [bound_chrono ⟨P, Q⟩ _ (by dsimp only; omega) (by dsimp only; omega)
                        (by dsimp only; omega)]
                  try dsimp only
                  split_ifs <;> omega)
               | (rw [bound_to_only ⟨P, Q⟩ _ (by dsimp only; omega) (by dsimp only; omega)]
                  try dsimp only
                  split_ifs <;> omega)
               | (rw [bound_from_only ⟨P, Q⟩ _ (by dsimp only; omega) (by dsimp only; omega)]
                  try dsimp only
                  split_ifs <;> omega)))
/-- C2 amended: ShiftIn fails exactly when both absolute durations are
finite and toshift's exceeds tsbound's.  Whenever it does not fail,
toshift was finite, and neither the shifted input's bounds nor the
result's bounds collide with the zero sentinel, the result's absolute
duration equals toshift's original absolute duration, its direction is
unchanged, and both resulting bounds lie within the chronologically
normalized tsbound (they are fixpoints of its Bound). -/
theorem C2_shiftin_contract (toshift : TimeSlice) (shiftby : Int) (tsbound : TimeSlice) :
    (toshift.ShiftIn shiftby tsbound = none ↔
      (toshift.DurationOf.Abs.IsFinite = true ∧ tsbound.DurationOf.Abs.IsFinite = true ∧
        tsbound.DurationOf.Abs.Duration < toshift.DurationOf.Abs.Duration))
    ∧ (∀ res : TimeSlice, toshift.ShiftIn shiftby tsbound = some res →
        toshift.DurationOf.IsFinite = true →
        toshift.From + shiftby ≠ 0 → toshift.To + shiftby ≠ 0 →
        res.From ≠ 0 → res.To ≠ 0 →
        (res.DurationOf.IsFinite = true ∧
          res.DurationOf.Abs = toshift.DurationOf.Abs ∧
          res.Direction = toshift.Direction ∧
          (tsbound.ForceDirection Chronological).Bound res.From = res.From ∧
          (tsbound.ForceDirection Chronological).Bound res.To = res.To)) := by
  obtain ⟨a, b⟩ := toshift
  obtain ⟨p, q⟩ := tsbound
  constructor
  · simp only [TimeSlice.ShiftIn]
    split_ifs with hf1 hf2
    · exact iff_of_true rfl hf1
    · exact iff_of_false (by simp) hf1
    · exact iff_of_false (by simp) hf1
  · intro res hres hfin hx hy hrf hrt
    obtain ⟨rf, rt⟩ := res
    have hx2 : a + shiftby ≠ 0 := hx
    have hy2 : b + shiftby ≠ 0 := hy
    have hrf2 : rf ≠ 0 := hrf
    have hrt2 : rt ≠ 0 := hrt
    have hab0 : ¬(a = 0 ∨ b = 0) := by
      intro hc
      rw [show TimeSlice.DurationOf ⟨a, b⟩ = ⟨0, false⟩ from by
        rw [TimeSlice.DurationOf, if_pos (by dsimp only; exact hc)]] at hfin
      simp at hfin
    have ha : a ≠ 0 := fun h => hab0 (Or.inl h)
    have hb : b ≠ 0 := fun h => hab0 (Or.inr h)
    simp only [TimeSlice.ShiftIn] at hres
    by_cases hfail : ((TimeSlice.DurationOf ⟨a, b⟩).Abs.IsFinite = true ∧
        (TimeSlice.DurationOf ⟨p, q⟩).Abs.IsFinite = true ∧
        (TimeSlice.DurationOf ⟨p, q⟩).Abs.Duration <
          (TimeSlice.DurationOf ⟨a, b⟩).Abs.Duration)
    · rw [if_pos hfail] at hres
      exact Option.noConfusion hres
    rw [if_neg hfail] at hres
    have hsh : (TimeSlice.ExtendFrom ⟨a, b⟩ shiftby).ExtendTo shiftby
        = (⟨a + shiftby, b + shiftby⟩ : TimeSlice) := by
      rw [TimeSlice.ExtendFrom, if_pos (show (⟨a, b⟩ : TimeSlice).From ≠ 0 from ha)]
      rw [TimeSlice.ExtendTo, if_pos (show (⟨a + shiftby, b⟩ : TimeSlice).To ≠ 0 from hb)]
    rw [hsh] at hres
    by_cases hz : p = 0 ∧ q = 0
    · -- the bounding slice is the zero slice: ShiftIn returns the shifted slice
      rw [if_pos (Or.inl (show TimeSlice.IsZero ⟨p, q⟩ from hz))] at hres
      have hres2 := Option.some.inj hres
      rw [TimeSlice.mk.injEq] at hres2
      obtain ⟨hE1, hE2⟩ := hres2
      subst hE1
      subst hE2
      obtain ⟨rfl, rfl⟩ := hz
      refine ⟨?_, ?_, ?_, ?_, ?_⟩
      · rw [TimeSlice.DurationOf, if_neg (by dsimp only; omega)]
      · rw [show TimeSlice.DurationOf ⟨a + shiftby, b + shiftby⟩
            = ⟨b + shiftby - (a + shiftby), true⟩ from by
              rw [TimeSlice.DurationOf, if_neg (by dsimp only; omega)],
           show TimeSlice.DurationOf ⟨a, b⟩ = ⟨b - a, true⟩ from by
              rw [TimeSlice.DurationOf, if_neg (by dsimp only; omega)]]
        rw [Duration.Abs, Duration.Abs]
        dsimp only
        rw [show b + shiftby - (a + shiftby) = b - a by omega]
      · rw [direction_finite (a + shiftby) (b + shiftby) hx2 hy2,
            direction_finite a b ha hb]
        split_ifs <;> first | rfl | omega
      · rw [forceChrono_eq, if_neg (by dsimp only; omega)]
        exact bound_zero_slice ⟨0, 0⟩ _ rfl rfl
      · rw [forceChrono_eq, if_neg (by dsimp only; omega)]
        exact bound_zero_slice ⟨0, 0⟩ _ rfl rfl
    · -- real bounding work
      have hnz : ¬(TimeSlice.IsZero ⟨p, q⟩ ∨
          TimeSlice.IsZero ⟨a + shiftby, b + shiftby⟩) := by
        rintro (h | h)
        · exact hz ⟨h.1, h.2⟩
        · exact hx2 h.1
      rw [if_neg hnz] at hres
      have hres2 := Option.some.inj hres
      clear hres
      rcases lt_trichotomy a b with hab | hab | hab
      · -- chronological toshift, D = b - a
        have habs : (TimeSlice.DurationOf ⟨a, b⟩).Abs = ⟨b - a, true⟩ := by
          rw [TimeSlice.DurationOf, if_neg (by dsimp only; omega), Duration.Abs]
          dsimp only
          rw [abs_of_pos (by omega)]
        rw [habs] at hres2
        dsimp only at hres2
        rw [if_pos (show (0 : Int) < b - a by omega)] at hres2
        rw [direction_finite (a + shiftby) (b + shiftby) hx2 hy2] at hres2
        rw [if_neg (show ¬(b + shiftby < a + shiftby) by omega),
            if_pos (show a + shiftby < b + shiftby by omega)] at hres2
        rw [if_pos (show Chronological ≠ Undefined by decide)] at hres2
        rw [forceChrono_eq ⟨a + shiftby, b + shiftby⟩] at hres2
        rw [if_neg (show ¬((⟨a + shiftby, b + shiftby⟩ : TimeSlice).From ≠ 0 ∧
            (⟨a + shiftby, b + shiftby⟩ : TimeSlice).To ≠ 0 ∧
            (⟨a + shiftby, b + shiftby⟩ : TimeSlice).To <
              (⟨a + shiftby, b + shiftby⟩ : TimeSlice).From) from by
          dsimp only; omega)] at hres2
        rw [forceChrono_eq ⟨p, q⟩] at hres2
        by_cases hpq : ((⟨p, q⟩ : TimeSlice).From ≠ 0 ∧ (⟨p, q⟩ : TimeSlice).To ≠ 0 ∧
            (⟨p, q⟩ : TimeSlice).To < (⟨p, q⟩ : TimeSlice).From)
        · rw [if_pos hpq] at hres2
          dsimp only at hres2 hpq
          simp only [apply_ite TimeSlice.To] at hres2
          try dsimp only at hres2
          have hbound : (TimeSlice.DurationOf ⟨p, q⟩).Abs = ⟨p - q, true⟩ := by
            rw [TimeSlice.DurationOf, if_neg (by dsimp only; omega), Duration.Abs]
            dsimp only
            rw [abs_of_neg (by omega), neg_sub]
          have hW : b - a ≤ p - q := by
            by_contra hc
            exact hfail ⟨by rw [habs], by rw [hbound],
              by rw [habs, hbound]; dsimp only; omega⟩
          obtain ⟨hc1, hc2, hc3⟩ := shiftin_core q p (a + shiftby) (b + shiftby)
            (b - a) Chronological ⟨rf, rt⟩ (by omega) (by omega) hx2 hy2
            (Or.inl rfl) (Or.inr (Or.inr ⟨hpq.2.1, hpq.1, by omega, by omega⟩))
            hrf2 hrt2 hres2
          rw [if_pos rfl] at hc1
          dsimp only at hc1 hc2 hc3
          refine ⟨?_, ?_, ?_, ?_, ?_⟩
          · rw [TimeSlice.DurationOf, if_neg (by dsimp only; omega)]
          · rw [show TimeSlice.DurationOf ⟨rf, rt⟩ = ⟨rt - rf, true⟩ from by
              rw [TimeSlice.DurationOf, if_neg (by dsimp only; omega)], habs,
              Duration.Abs]
            dsimp only
            rw [hc1, abs_of_pos (by omega)]
          · rw [direction_finite rf rt hrf2 hrt2, direction_finite a b ha hb]
            split_ifs <;> first | rfl | omega
          · rw [forceChrono_eq ⟨p, q⟩, if_pos hpq]
            exact hc2
          · rw [forceChrono_eq ⟨p, q⟩, if_pos hpq]
            exact hc3
        · rw [if_neg hpq] at hres2
          dsimp only at hres2 hpq
          simp only [apply_ite TimeSlice.To] at hres2
          try dsimp only at hres2
          have hshape : (p = 0 ∧ q ≠ 0) ∨ (p ≠ 0 ∧ q = 0) ∨
              (p ≠ 0 ∧ q ≠ 0 ∧ p ≤ q ∧ b - a ≤ q - p) := by
            by_cases hp0 : p = 0
            · exact Or.inl ⟨hp0, fun h => hz ⟨hp0, h⟩⟩
            · by_cases hq0 : q = 0
              · exact Or.inr (Or.inl ⟨hp0, hq0⟩)
              · refine Or.inr (Or.inr ⟨hp0, hq0, by omega, ?_⟩)
                have hbound : (TimeSlice.DurationOf ⟨p, q⟩).Abs = ⟨q - p, true⟩ := by
                  rw [TimeSlice.DurationOf, if_neg (by dsimp only; omega), Duration.Abs]
                  dsimp only
                  rw [abs_of_nonneg (by omega)]
                by_contra hc
                exact hfail ⟨by rw [habs], by rw [hbound],
                  by rw [habs, hbound]; dsimp only; omega⟩
          obtain ⟨hc1, hc2, hc3⟩ := shiftin_core p q (a + shiftby) (b + shiftby)
            (b - a) Chronological ⟨rf, rt⟩ (by omega) (by omega) hx2 hy2
            (Or.inl rfl) hshape hrf2 hrt2 hres2
          rw [if_pos rfl] at hc1
          dsimp only at hc1 hc2 hc3
          refine ⟨?_, ?_, ?_, ?_, ?_⟩
          · rw [TimeSlice.DurationOf, if_neg (by dsimp only; omega)]
          · rw [show TimeSlice.DurationOf ⟨rf, rt⟩ = ⟨rt - rf, true⟩ from by
              rw [TimeSlice.DurationOf, if_neg (by dsimp only; omega)], habs,
              Duration.Abs]
            dsimp only
            rw [hc1, abs_of_pos (by omega)]
          · rw [direction_finite rf rt hrf2 hrt2, direction_finite a b ha hb]
            split_ifs <;> first | rfl | omega
          · rw [forceChrono_eq ⟨p, q⟩, if_neg hpq]
            exact hc2
          · rw [forceChrono_eq ⟨p, q⟩, if_neg hpq]
            exact hc3
      · -- zero-duration toshift
        subst hab
        have habs0 : (TimeSlice.DurationOf ⟨a, a⟩).Abs = ⟨0, true⟩ := by
          rw [TimeSlice.DurationOf, if_neg (by dsimp only; omega), Duration.Abs]
          dsimp only
          rw [show a - a = 0 by omega, abs_zero]
        rw [habs0] at hres2
        dsimp only at hres2
        rw [if_neg (show ¬((0 : Int) < 0) by omega)] at hres2
        rw [direction_finite (a + shiftby) (a + shiftby) hx2 hx2] at hres2
        rw [if_neg (show ¬(a + shiftby < a + shiftby) by omega)] at hres2
        rw [if_neg (show ¬(a + shiftby < a + shiftby) by omega)] at hres2
        rw [if_neg (show ¬(Undefined ≠ Undefined) by decide)] at hres2
        rw [forceChrono_eq ⟨a + shiftby, a + shiftby⟩] at hres2
        rw [if_neg (show ¬((⟨a + shiftby, a + shiftby⟩ : TimeSlice).From ≠ 0 ∧
            (⟨a + shiftby, a + shiftby⟩ : TimeSlice).To ≠ 0 ∧
            (⟨a + shiftby, a + shiftby⟩ : TimeSlice).To <
              (⟨a + shiftby, a + shiftby⟩ : TimeSlice).From) from by
          dsimp only; omega)] at hres2
        dsimp only at hres2
        rw [TimeSlice.mk.injEq] at hres2
        obtain ⟨hE1, hE2⟩ := hres2
        have hrfrt : rf = rt := by rw [← hE1, hE2]
        refine ⟨?_, ?_, ?_, ?_, ?_⟩
        · rw [TimeSlice.DurationOf, if_neg (by dsimp only; omega)]
        · rw [show TimeSlice.DurationOf ⟨rf, rt⟩ = ⟨rt - rf, true⟩ from by
            rw [TimeSlice.DurationOf, if_neg (by dsimp only; omega)], habs0,
            Duration.Abs]
          dsimp only
          rw [show rt - rf = 0 by omega, abs_zero]
        · rw [direction_finite rf rt hrf2 hrt2, direction_finite a a ha ha]
          split_ifs <;> first | rfl | omega
        · rw [← hE1]
          exact bound_idem _ _
        · rw [← hE2]
          exact bound_idem _ _
      · -- anti-chronological toshift, D = a - b
        have habs : (TimeSlice.DurationOf ⟨a, b⟩).Abs = ⟨a - b, true⟩ := by
          rw [TimeSlice.DurationOf, if_neg (by dsimp only; omega), Duration.Abs]
          dsimp only
          rw [abs_of_neg (by omega), neg_sub]
        rw [habs] at hres2
        dsimp only at hres2
        rw [if_pos (show (0 : Int) < a - b by omega)] at hres2
        rw [direction_finite (a + shiftby) (b + shiftby) hx2 hy2] at hres2
        rw [if_pos (show b + shiftby < a + shiftby by omega)] at hres2
        rw [if_pos (show AntiChronological ≠ Undefined by decide)] at hres2
        rw [forceChrono_eq ⟨a + shiftby, b + shiftby⟩] at hres2
        rw [if_pos (show ((⟨a + shiftby, b + shiftby⟩ : TimeSlice).From ≠ 0 ∧
            (⟨a + shiftby, b + shiftby⟩ : TimeSlice).To ≠ 0 ∧
            (⟨a + shiftby, b + shiftby⟩ : TimeSlice).To <
              (⟨a + shiftby, b + shiftby⟩ : TimeSlice).From) from by
          dsimp only; exact ⟨hx2, hy2, by omega⟩)] at hres2
        rw [forceChrono_eq ⟨p, q⟩] at hres2
        by_cases hpq : ((⟨p, q⟩ : TimeSlice).From ≠ 0 ∧ (⟨p, q⟩ : TimeSlice).To ≠ 0 ∧
            (⟨p, q⟩ : TimeSlice).To < (⟨p, q⟩ : TimeSlice).From)
        · rw [if_pos hpq] at hres2
          dsimp only at hres2 hpq
          simp only [apply_ite TimeSlice.To] at hres2
          try dsimp only at hres2
          have hbound : (TimeSlice.DurationOf ⟨p, q⟩).Abs = ⟨p - q, true⟩ := by
            rw [TimeSlice.DurationOf, if_neg (by dsimp only; omega), Duration.Abs]
            dsimp only
            rw [abs_of_neg (by omega), neg_sub]
          have hW : a - b ≤ p - q := by
            by_contra hc
            exact hfail ⟨by rw [habs], by rw [hbound],
              by rw [habs, hbound]; dsimp only; omega⟩
          obtain ⟨hc1, hc2, hc3⟩ := shiftin_core q p (b + shiftby) (a + shiftby)
            (a - b) AntiChronological ⟨rf, rt⟩ (by omega) (by omega) hy2 hx2
            (Or.inr rfl) (Or.inr (Or.inr ⟨hpq.2.1, hpq.1, by omega, by omega⟩))
            hrf2 hrt2 hres2
          rw [if_neg (by decide)] at hc1
          dsimp only at hc1 hc2 hc3
          refine ⟨?_, ?_, ?_, ?_, ?_⟩
          · rw [TimeSlice.DurationOf, if_neg (by dsimp only; omega)]
          · rw [show TimeSlice.DurationOf ⟨rf, rt⟩ = ⟨rt - rf, true⟩ from by
              rw [TimeSlice.DurationOf, if_neg (by dsimp only; omega)], habs,
              Duration.Abs]
            dsimp only
            rw [show rt - rf = -(a - b) from by omega, abs_neg, abs_of_pos (by omega)]
          · rw [direction_finite rf rt hrf2 hrt2, direction_finite a b ha hb]
            split_ifs <;> first | rfl | omega
          · rw [forceChrono_eq ⟨p, q⟩, if_pos hpq]
            exact hc2
          · rw [forceChrono_eq ⟨p, q⟩, if_pos hpq]
            exact hc3
        · rw [if_neg hpq] at hres2
          dsimp only at hres2 hpq
          simp only [apply_ite TimeSlice.To] at hres2
          try dsimp only at hres2
          have hshape : (p = 0 ∧ q ≠ 0) ∨ (p ≠ 0 ∧ q = 0) ∨
              (p ≠ 0 ∧ q ≠ 0 ∧ p ≤ q ∧ a - b ≤ q - p) := by
            by_cases hp0 : p = 0
            · exact Or.inl ⟨hp0, fun h => hz ⟨hp0, h⟩⟩
            · by_cases hq0 : q = 0
              · exact Or.inr (Or.inl ⟨hp0, hq0⟩)
              · refine Or.inr (Or.inr ⟨hp0, hq0, by omega, ?_⟩)
                have hbound : (TimeSlice.DurationOf ⟨p, q⟩).Abs = ⟨q - p, true⟩ := by
                  rw [TimeSlice.DurationOf, if_neg (by dsimp only; omega), Duration.Abs]
                  dsimp only
                  rw [abs_of_nonneg (by omega)]
                by_contra hc
                exact hfail ⟨by rw [habs], by rw [hbound],
                  by rw [habs, hbound]; dsimp only; omega⟩
          obtain ⟨hc1, hc2, hc3⟩ := shiftin_core p q (b + shiftby) (a + shiftby)
            (a - b) AntiChronological ⟨rf, rt⟩ (by omega) (by omega) hy2 hx2
            (Or.inr rfl) hshape hrf2 hrt2 hres2
          rw [if_neg (by decide)] at hc1
          dsimp only at hc1 hc2 hc3
          refine ⟨?_, ?_, ?_, ?_, ?_⟩
          · rw [TimeSlice.DurationOf, if_neg (by dsimp only; omega)]
          · rw [show TimeSlice.DurationOf ⟨rf, rt⟩ = ⟨rt - rf, true⟩ from by
              rw [TimeSlice.DurationOf, if_neg (by dsimp only; omega)], habs,
              Duration.Abs]
            dsimp only
            rw [show rt - rf = -(a - b) from by omega, abs_neg, abs_of_pos (by omega)]
          · rw [direction_finite rf rt hrf2 hrt2, direction_finite a b ha hb]
            split_ifs <;> first | rfl | omega
          · rw [forceChrono_eq ⟨p, q⟩, if_neg hpq]
            exact hc2
          · rw [forceChrono_eq ⟨p, q⟩, if_neg hpq]
            exact hc3

/-- C2 counterexample: ShiftIn on a half-infinite toshift (To = zero
sentinel) does not fail, yet the result's absolute duration differs from
toshift's original absolute duration, contradicting the unconditional
duration-preservation reading of the claim. -/
theorem C2_shiftin_duration_cex :
    TimeSlice.ShiftIn ⟨10, 0⟩ 0 ⟨1, 100⟩ = some ⟨1, 10⟩ ∧
    (TimeSlice.DurationOf ⟨1, 10⟩).Abs ≠ (TimeSlice.DurationOf ⟨10, 0⟩).Abs := by decide

/-- Witness: the amended ShiftIn contract instantiated at toshift = [2,5],
shiftby = 1, tsbound = [1,100], result [3,6]. -/
theorem C2_shiftin_contract_witness :
    TimeSlice.ShiftIn ⟨2, 5⟩ 1 ⟨1, 100⟩ = some ⟨3, 6⟩ ∧
    (TimeSlice.DurationOf ⟨3, 6⟩).IsFinite = true ∧
    (TimeSlice.DurationOf ⟨3, 6⟩).Abs = (TimeSlice.DurationOf ⟨2, 5⟩).Abs ∧
    TimeSlice.Direction ⟨3, 6⟩ = TimeSlice.Direction ⟨2, 5⟩ ∧
    (TimeSlice.ForceDirection ⟨1, 100⟩ Chronological).Bound 3 = 3 ∧
    (TimeSlice.ForceDirection ⟨1, 100⟩ Chronological).Bound 6 = 6 := by
  have h := (C2_shiftin_contract ⟨2, 5⟩ 1 ⟨1, 100⟩).2 ⟨3, 6⟩ (by decide) (by decide)
    (by decide) (by decide) (by decide) (by decide)
  exact ⟨by decide, h.1, h.2.1, h.2.2.1, h.2.2.2.1, h.2.2.2.2⟩
